import Mathlib

/- Verification of the coinnect streaming core: the order-book aggregator of
src/types.rs, the Bittrex streaming message handler of
src/bittrex/streaming_api.rs, and the connect/backoff loop of
src/exchange_bot.rs, shallowly embedded in Lean. -/

set_option autoImplicit false

namespace Coinnect

/-- Prices are arbitrary-precision decimals (BigDecimal) in the source;
embedded as rationals, which contain every decimal and have exact
arithmetic and exact comparison. -/
abbrev Price := ℚ

/-- Volumes, also arbitrary-precision decimals in the source. -/
abbrev Volume := ℚ

/-- A price level, the Rust pair (price, volume). -/
abbrev Level := Price × Volume

/-- Trading-pair identifier. The Rust Pair enum is an abstract static catalog
of identifiers; embedded as strings. -/
abbrev Pair := String

/-- BTreeMap Price (Price, Volume) as used by LiveAggregatedOrderBook:
every stored value kp sits under key kp.0 (the price), so the map is
embedded as the list of its values in ascending key order; iter() is the
list itself. -/
abbrev BookMap := List Level

/-- The strictly-ascending-keys invariant of a BTreeMap entry list. -/
abbrev sortedByPrice (m : BookMap) : Prop :=
  m.Pairwise (fun a b => a.1 < b.1)

/-- BTreeMap entry(kp.0).or_insert(kp): insert kp at its price key only if
that key is absent, keeping ascending order; an existing entry is kept. -/
def orInsert (kp : Level) : BookMap → BookMap
  | [] => [kp]
  | x :: xs =>
    if kp.1 < x.1 then kp :: x :: xs
    else if kp.1 = x.1 then x :: xs
    else x :: orInsert kp xs

/-- BTreeMap remove(p): drop the entry stored at key p, if present. -/
def eraseKey (p : Price) : BookMap → BookMap
  | [] => []
  | x :: xs => if x.1 = p then xs else x :: eraseKey p xs

/-- Observation used in specifications: the value stored at key p. -/
def lookupB (p : Price) : BookMap → Option Level
  | [] => none
  | x :: xs => if x.1 = p then some x else lookupB p xs

/-- src/types.rs LiveAggregatedOrderBook (the Pair field is carried along;
the two BTreeMaps are embedded as sorted entry lists). -/
structure LiveAggregatedOrderBook where
  depth : Nat
  pair : Pair
  asks_by_price : BookMap
  bids_by_price : BookMap
  last_asks : List Level
  last_bids : List Level
deriving DecidableEq, Repr

/-- src/types.rs: const DEFAULT_BOOK_DEPTH: i8 = 5. -/
def DEFAULT_BOOK_DEPTH : Nat := 5

/-- LiveAggregatedOrderBook::default(pair): empty maps, empty caches. -/
def LiveAggregatedOrderBook.default (pair : Pair) : LiveAggregatedOrderBook :=
  { depth := DEFAULT_BOOK_DEPTH
    pair := pair
    asks_by_price := []
    bids_by_price := []
    last_asks := []
    last_bids := [] }

/-- src/types.rs Orderbook. The timestamp is Utc::now() in the source,
passed here as an explicit argument of the view. -/
structure Orderbook where
  timestamp : Int
  pair : Pair
  asks : List Level
  bids : List Level
deriving DecidableEq, Repr

/-- LiveAggregatedOrderBook::order_book: asks are the ascending iteration,
take(depth), then rev(); bids are the descending iteration, take(depth),
then rev(). -/
def LiveAggregatedOrderBook.order_book (s : LiveAggregatedOrderBook) (now : Int) : Orderbook :=
  { timestamp := now
    pair := s.pair
    asks := (s.asks_by_price.take s.depth).reverse
    bids := ((s.bids_by_price.reverse.take s.depth)).reverse }

/-- Orderbook::avg_price: None on an empty side, else the midpoint of the
first ask price and the first bid price, divided by the decimal 2. -/
def Orderbook.avg_price (ob : Orderbook) : Option Price :=
  if ob.asks.isEmpty || ob.bids.isEmpty then none
  else some ((ob.asks.headI.1 + ob.bids.headI.1) / 2)

/-- LiveAggregatedOrderBook::latest_order_book: build the view; if its asks
and bids both equal the cached last emitted ones, return None and leave the
state untouched; otherwise update the cache and return the view. -/
def LiveAggregatedOrderBook.latest_order_book (s : LiveAggregatedOrderBook) (now : Int) :
    Option Orderbook × LiveAggregatedOrderBook :=
  let latest := s.order_book now
  if latest.asks = s.last_asks ∧ latest.bids = s.last_bids then
    (none, s)
  else
    (some latest, { s with last_asks := latest.asks, last_bids := latest.bids })

/-- LiveAggregatedOrderBook::reset_asks: entry(kp.0).or_insert(kp) for each
incoming level, in iteration order. -/
def LiveAggregatedOrderBook.reset_asks (s : LiveAggregatedOrderBook) (iter : List Level) :
    LiveAggregatedOrderBook :=
  { s with asks_by_price := iter.foldl (fun m kp => orInsert kp m) s.asks_by_price }

/-- LiveAggregatedOrderBook::reset_bids, same shape on the bids map. -/
def LiveAggregatedOrderBook.reset_bids (s : LiveAggregatedOrderBook) (iter : List Level) :
    LiveAggregatedOrderBook :=
  { s with bids_by_price := iter.foldl (fun m kp => orInsert kp m) s.bids_by_price }

/-- LiveAggregatedOrderBook::update_ask: a zero volume removes the price
from the asks map, otherwise entry(kp.0).or_insert(kp) on the asks map. -/
def LiveAggregatedOrderBook.update_ask (s : LiveAggregatedOrderBook) (kp : Level) :
    LiveAggregatedOrderBook :=
  if kp.2 = 0 then { s with asks_by_price := eraseKey kp.1 s.asks_by_price }
  else { s with asks_by_price := orInsert kp s.asks_by_price }

/-- LiveAggregatedOrderBook::update_asks: update_ask over the iterator. -/
def LiveAggregatedOrderBook.update_asks (s : LiveAggregatedOrderBook) (iter : List Level) :
    LiveAggregatedOrderBook :=
  iter.foldl LiveAggregatedOrderBook.update_ask s

/-- LiveAggregatedOrderBook::update_bids: the source delegates each change
to self.update_ask(kp) (the asks-map updater), and that is embedded here
exactly as written. -/
def LiveAggregatedOrderBook.update_bids (s : LiveAggregatedOrderBook) (iter : List Level) :
    LiveAggregatedOrderBook :=
  iter.foldl LiveAggregatedOrderBook.update_ask s

/-- LiveAggregatedOrderBook::update_bid: a zero volume removes the price
from the bids map, otherwise entry(kp.0).or_insert(kp) on the bids map.
(Defined in the source but never called by the streaming handler.) -/
def LiveAggregatedOrderBook.update_bid (s : LiveAggregatedOrderBook) (kp : Level) :
    LiveAggregatedOrderBook :=
  if kp.2 = 0 then { s with bids_by_price := eraseKey kp.1 s.bids_by_price }
  else { s with bids_by_price := orInsert kp s.bids_by_price }

/-- src/types.rs TradeType (the variant named None in Rust). -/
inductive TradeType
  | Sell
  | Buy
  | NoneSide
deriving DecidableEq, Repr

/-- From String for TradeType: lowercase match on sell / buy. -/
def TradeType.ofString (s : String) : TradeType :=
  if s.toLower = ("sell") then TradeType.Sell
  else if s.toLower = ("buy") then TradeType.Buy
  else TradeType.NoneSide

/-- src/types.rs LiveTrade (amount is f32 in the source; embedded as an
exact rational carrying the same numeric value). -/
structure LiveTrade where
  event_ms : Int
  pair : String
  amount : ℚ
  price : Price
  tt : TradeType
deriving DecidableEq, Repr

/-- src/types.rs LiveOrder. -/
structure LiveOrder where
  event_ms : Int
  pair : String
  amount : ℚ
  price : Price
  tt : TradeType
deriving DecidableEq, Repr

/-- src/types.rs LiveEvent, including the Noop non-event variant. -/
inductive LiveEvent
  | LiveOrder (o : LiveOrder)
  | LiveTrade (t : LiveTrade)
  | LiveOrderbook (ob : Orderbook)
  | Noop
deriving DecidableEq, Repr

/-- Exchange tags. Modelled from the spec: src/exchange.rs is not among the
provided sources; the variants are those dispatched in src/coinnect.rs. -/
inductive Exchange
  | Bitstamp
  | Kraken
  | Poloniex
  | Bittrex
  | Gdax
deriving DecidableEq, Repr

/-- src/types.rs LiveEventEnveloppe(Exchange, LiveEvent). -/
structure LiveEventEnveloppe where
  exchange : Exchange
  event : LiveEvent
deriving DecidableEq, Repr

/-- src/bittrex/models.rs OrderLog (field Type renamed Ty: Type is a Lean
keyword); numeric f32 fields embedded as rationals. -/
structure OrderLog where
  Ty : Int
  Rate : ℚ
  Quantity : ℚ
deriving DecidableEq, Repr

/-- src/bittrex/models.rs Fill (the fields the handler reads). -/
structure Fill where
  FillId : Int
  OrderType : String
  Rate : ℚ
  Quantity : ℚ
  TimeStamp : Int
deriving DecidableEq, Repr

/-- src/bittrex/models.rs MarketDelta. -/
structure MarketDelta where
  MarketName : String
  Nonce : Int
  Buys : List OrderLog
  Sells : List OrderLog
  Fills : List Fill
deriving DecidableEq, Repr

/-- The error kinds produced by BittrexStreamingApi::deflate and
deflate_array (Base64DecodeError, InvalidData on a corrupt deflate stream,
ParseError on a JSON shape mismatch, MissingData on an empty envelope). -/
inductive DeflateError
  | base64DecodeError
  | invalidData
  | parseError
  | missingData
deriving DecidableEq, Repr

/-- The mutable state of BittrexStreamingApi that the handler touches:
the per-pair book table and the two subscription sets. -/
structure BittrexState where
  books : List (Pair × LiveAggregatedOrderBook)
  order_book_pairs : List Pair
  trade_pairs : List Pair
deriving DecidableEq, Repr

/-- books.entry(pair).or_insert(default): the stored book, or a fresh
default one. -/
def getBook : List (Pair × LiveAggregatedOrderBook) → Pair → LiveAggregatedOrderBook
  | [], p => LiveAggregatedOrderBook.default p
  | (q, b) :: rest, p => if q = p then b else getBook rest p

/-- Store the (possibly new) book back under its pair. -/
def setBook : List (Pair × LiveAggregatedOrderBook) → Pair → LiveAggregatedOrderBook →
    List (Pair × LiveAggregatedOrderBook)
  | [], p, b => [(p, b)]
  | (q, c) :: rest, p, b => if q = p then (p, b) :: rest else (q, c) :: setBook rest p b

/-- Outcome of one call of BittrexStreamingApi::handle: a panic from an
unwrap, an early return on an unknown pair, an Ok list of events handed to
the dispatch loop, or the Err(()) marker when nothing is dispatched. -/
inductive HandleResult
  | panicked
  | dropped
  | events (les : List LiveEvent)
  | noEvents
deriving DecidableEq, Repr

/-- The events a handle outcome carries to the dispatch loop. -/
def HandleResult.eventsOf : HandleResult → List LiveEvent
  | .events les => les
  | _ => []

/-- The LiveTrade event built for one fill of a market delta. -/
def mkTradeEvent (current_pair : Pair) (fill : Fill) : LiveEvent :=
  LiveEvent.LiveTrade
    { event_ms := fill.TimeStamp
      pair := current_pair
      amount := fill.Quantity
      price := fill.Rate
      tt := TradeType.ofString fill.OrderType }

/-- The book mutation of the uE branch: update_asks with the Sells as
(Rate, Quantity), update_bids with the Buys, then latest_order_book. -/
def uE_apply_delta (agg : LiveAggregatedOrderBook) (delta : MarketDelta) (now : Int) :
    Option Orderbook × LiveAggregatedOrderBook :=
  ((agg.update_asks (delta.Sells.map (fun op => (op.Rate, op.Quantity)))).update_bids
      (delta.Buys.map (fun op => (op.Rate, op.Quantity)))).latest_order_book now

/-- The order-book events pushed by the uE branch: one LiveOrderbook event
when latest_order_book flushes a changed view, none otherwise. -/
def uE_book_events (st : BittrexState) (current_pair : Pair) (delta : MarketDelta)
    (now : Int) : List LiveEvent :=
  if st.order_book_pairs.contains current_pair then
    match (uE_apply_delta (getBook st.books current_pair) delta now).1 with
    | some ob => [LiveEvent.LiveOrderbook ob]
    | none => []
  else []

/-- The book table after the uE branch ran. -/
def uE_new_books (st : BittrexState) (current_pair : Pair) (delta : MarketDelta)
    (now : Int) : List (Pair × LiveAggregatedOrderBook) :=
  if st.order_book_pairs.contains current_pair then
    setBook st.books current_pair (uE_apply_delta (getBook st.books current_pair) delta now).2
  else st.books

/-- The trade events pushed by the uE branch: one per fill when the pair is
in the trade subscription set. -/
def uE_trade_events (st : BittrexState) (current_pair : Pair) (delta : MarketDelta) :
    List LiveEvent :=
  if st.trade_pairs.contains current_pair then delta.Fills.map (mkTradeEvent current_pair)
  else []

/-- The uE (market delta) branch of BittrexStreamingApi::handle. The wire
payload is represented by the outcome of deflate_array on it (base64,
deflate and serde are external library calls); pairOf stands for the
utils::get_pair_enum catalog lookup. The source unwraps the decode result,
so a failed decode is the panicked outcome; an unknown pair is the early
return; an empty event list is the Err(()) marker, dispatched events are
the Ok list. -/
def handle_uE_ok (pairOf : String → Option Pair) (st : BittrexState) (delta : MarketDelta)
    (now : Int) : HandleResult × BittrexState :=
  match pairOf delta.MarketName with
  | none => (.dropped, st)
  | some current_pair =>
    if (uE_book_events st current_pair delta now ++
        uE_trade_events st current_pair delta).isEmpty then
      (.noEvents, { st with books := uE_new_books st current_pair delta now })
    else
      (.events (uE_book_events st current_pair delta now ++
          uE_trade_events st current_pair delta),
        { st with books := uE_new_books st current_pair delta now })

def handle_uE (pairOf : String → Option Pair) (st : BittrexState)
    (decoded : Except DeflateError MarketDelta) (now : Int) :
    HandleResult × BittrexState :=
  match decoded with
  | .error _ => (.panicked, st)
  | .ok delta => handle_uE_ok pairOf st delta now

/-- A registered subscriber (a Recipient): whether its actor is still
there, and the envelopes delivered to it so far. -/
structure Subscriber where
  alive : Bool
  inbox : List LiveEventEnveloppe
deriving DecidableEq, Repr

/-- The panic raised by an unwrap. -/
inductive Panic
  | panicked
deriving DecidableEq, Repr

/-- Recipient::do_send: queue an owned envelope if the recipient is still
there, otherwise a send error (which the handler unwraps). -/
def do_send (r : Subscriber) (env : LiveEventEnveloppe) : Except Panic Subscriber :=
  if r.alive then .ok { r with inbox := r.inbox ++ [env] } else .error .panicked

/-- The inner dispatch loop of handle: for each recipient in registration
order, clone the event and do_send(..).unwrap(). -/
def sendToAll (ex : Exchange) (le : LiveEvent) : List Subscriber → Except Panic (List Subscriber)
  | [] => .ok []
  | r :: rs =>
    match do_send r ⟨ex, le⟩ with
    | .ok r₁ =>
      match sendToAll ex le rs with
      | .ok rs₁ => .ok (r₁ :: rs₁)
      | .error e => .error e
    | .error e => .error e

/-- The outer dispatch loop of handle (streaming_api.rs lines 186-195):
every event of the Ok list is sent to every recipient, event by event. -/
def dispatch (ex : Exchange) : List LiveEvent → List Subscriber → Except Panic (List Subscriber)
  | [], subs => .ok subs
  | le :: les, subs =>
    match sendToAll ex le subs with
    | .ok subs₁ => dispatch ex les subs₁
    | .error e => .error e

/-- The connect loop of DefaultWsActor::new. connect i tells whether the
i-th call of helpers::new_ws_client succeeds; nextBackoff i is what
conn_backoff.next_backoff() answers after the i-th failure (the backoff
policy answers none exactly when its configured maximum elapsed time is
exceeded, and never answers none when no maximum is configured). fuel
bounds the unrolling: a none result means the loop is still retrying after
fuel iterations; some (ok i) is a connection at attempt i; some (error ())
is the fatal backoff error returned to the caller. -/
def connectLoop (connect : Nat → Bool) (nextBackoff : Nat → Option Nat) :
    Nat → Nat → Option (Except Unit Nat)
  | 0, _ => none
  | fuel + 1, i =>
    if connect i then some (.ok i)
    else
      match nextBackoff i with
      | some _ => connectLoop connect nextBackoff fuel (i + 1)
      | none => some (.error ())

/-- Pair-catalog lookup recognising one market name; used as get_pair_enum
at concrete inputs. -/
def pairOfBTC : String → Option Pair :=
  fun m => if m = ("BTC-USD") then some ("BTC-USD") else none

/-- A concrete handler state subscribed to the full order book of one
pair, and holding the default book for it. -/
def stBTC : BittrexState :=
  { books := [(("BTC-USD"), LiveAggregatedOrderBook.default ("BTC-USD"))]
    order_book_pairs := [("BTC-USD")]
    trade_pairs := [] }

/-- A concrete trade event used as dispatch payload at concrete inputs. -/
def evSample : LiveEvent :=
  LiveEvent.LiveTrade
    { event_ms := 0, pair := ("BTC-USD"), amount := 1, price := 1, tt := TradeType.Buy }

theorem lookupB_eq_none (q : Price) (m : BookMap) (h : ∀ kv ∈ m, q < kv.1) :
    lookupB q m = none := by
  induction m with
  | nil => rfl
  | cons x xs ih =>
    have hx : q < x.1 := h x (by simp)
    simp only [lookupB, if_neg (ne_of_gt hx)]
    exact ih (fun kv hkv => h kv (by simp [hkv]))

theorem mem_orInsert (b kp : Level) (m : BookMap) (h : b ∈ orInsert kp m) :
    b = kp ∨ b ∈ m := by
  induction m with
  | nil =>
    rw [orInsert] at h
    exact Or.inl (List.mem_singleton.mp h)
  | cons x xs ih =>
    rw [orInsert] at h
    split at h
    · rcases List.mem_cons.mp h with h₀ | h₀
      · exact Or.inl h₀
      · exact Or.inr h₀
    · split at h
      · exact Or.inr h
      · rcases List.mem_cons.mp h with h₀ | h₀
        · exact Or.inr (List.mem_cons.mpr (Or.inl h₀))
        · rcases ih h₀ with h₁ | h₁
          · exact Or.inl h₁
          · exact Or.inr (List.mem_cons.mpr (Or.inr h₁))

theorem sorted_orInsert (kp : Level) (m : BookMap) (hs : sortedByPrice m) :
    sortedByPrice (orInsert kp m) := by
  induction m with
  | nil => simp [orInsert, sortedByPrice]
  | cons x xs ih =>
    rcases List.pairwise_cons.mp hs with ⟨hhead, htail⟩
    by_cases h1 : kp.1 < x.1
    · simp only [orInsert, if_pos h1]
      refine List.pairwise_cons.mpr ⟨?_, hs⟩
      intro b hb
      rcases List.mem_cons.mp hb with rfl | hb
      · exact h1
      · exact lt_trans h1 (hhead b hb)
    · by_cases h2 : kp.1 = x.1
      · simpa only [orInsert, if_neg h1, if_pos h2] using hs
      · simp only [orInsert, if_neg h1, if_neg h2]
        refine List.pairwise_cons.mpr ⟨?_, ih htail⟩
        intro b hb
        rcases mem_orInsert b kp xs hb with rfl | hb
        · exact lt_of_le_of_ne (le_of_not_lt h1) (fun e => h2 e.symm)
        · exact hhead b hb

theorem lookupB_orInsert (kp : Level) (m : BookMap) (hs : sortedByPrice m)
    (p : Price) (hp : (lookupB p m).isSome = true) :
    lookupB p (orInsert kp m) = lookupB p m := by
  induction m with
  | nil => simp [lookupB] at hp
  | cons x xs ih =>
    rcases List.pairwise_cons.mp hs with ⟨hhead, htail⟩
    by_cases h1 : kp.1 < x.1
    · have hxle : ¬ p < x.1 := by
        intro hlt
        have : lookupB p (x :: xs) = none := by
          refine lookupB_eq_none p (x :: xs) ?_
          intro kv hkv
          rcases List.mem_cons.mp hkv with rfl | hkv
          · exact hlt
          · exact lt_trans hlt (hhead kv hkv)
        simp [this] at hp
      have hne : kp.1 ≠ p := ne_of_lt (lt_of_lt_of_le h1 (le_of_not_lt hxle))
      simp only [orInsert, if_pos h1, lookupB, if_neg hne]
    · by_cases h2 : kp.1 = x.1
      · simp only [orInsert, if_neg h1, if_pos h2]
      · simp only [orInsert, if_neg h1, if_neg h2]
        by_cases h3 : x.1 = p
        · simp only [lookupB, if_pos h3]
        · simp only [lookupB, if_neg h3]
          simp only [lookupB, if_neg h3] at hp
          exact ih htail hp

theorem lookupB_foldl_orInsert (levels : List Level) (m : BookMap) (hs : sortedByPrice m)
    (p : Price) (hp : (lookupB p m).isSome = true) :
    lookupB p (levels.foldl (fun m₁ kp => orInsert kp m₁) m) = lookupB p m := by
  induction levels generalizing m with
  | nil => rfl
  | cons kp rest ih =>
    simp only [List.foldl_cons]
    have h₁ : lookupB p (orInsert kp m) = lookupB p m := lookupB_orInsert kp m hs p hp
    rw [ih (orInsert kp m) (sorted_orInsert kp m hs) (by rw [h₁]; exact hp), h₁]

/-- Claim C2 (code bug in the source): update_bids routes each bid change
through update_ask, so a nonzero bid change lands in the asks map and the
bids map stays empty — the claim says bid changes go to the bids map only
and leave the asks map unchanged. -/
theorem C2_update_bids_targets_asks_map :
    ((LiveAggregatedOrderBook.default ("BTC-USD")).update_bids [(100, 1)]).asks_by_price
        = [(100, 1)]
    ∧ ((LiveAggregatedOrderBook.default ("BTC-USD")).update_bids [(100, 1)]).bids_by_price
        = [] := by
  constructor <;> rfl

/-- Claim C3 (code bug in the source): at the reachable state holding asks
at prices 1 and 2, the view respects the depth bound but returns the ask
levels strictly descending, not strictly ascending as claimed: order_book
reverses the ascending take on the asks side. -/
theorem C3_view_asks_descending :
    (((LiveAggregatedOrderBook.default ("BTC-USD")).update_asks
          [(1, 1), (2, 1)]).order_book 0).asks = [(2, 1), (1, 1)]
    ∧ (((LiveAggregatedOrderBook.default ("BTC-USD")).update_asks
          [(1, 1), (2, 1)]).order_book 0).asks.length ≤ DEFAULT_BOOK_DEPTH
    ∧ ¬ List.Pairwise (fun a b : Level => a.1 < b.1)
        ((((LiveAggregatedOrderBook.default ("BTC-USD")).update_asks
            [(1, 1), (2, 1)]).order_book 0).asks) := by
  refine ⟨rfl, by decide, ?_⟩
  intro h
  have := (List.pairwise_cons.mp h).1 (1, 1) (by simp)
  norm_num at this

/-- Claim C4 (code bug in the source): reset_asks inserts an incoming
zero-volume level (there is no zero filter on the reset path), and that
level shows up in the view produced afterwards — the claim says a
(price, 0) entry of a snapshot is never inserted. -/
theorem C4_reset_inserts_zero_volume :
    ((LiveAggregatedOrderBook.default ("BTC-USD")).reset_asks [(100, 0)]).asks_by_price
        = [(100, 0)]
    ∧ (((LiveAggregatedOrderBook.default ("BTC-USD")).reset_asks
          [(100, 0)]).order_book 0).asks = [(100, 0)] := by
  constructor <;> rfl

/-- Claim C1 (code bug in the source): the uE branch unwraps the decode
result, so a market-delta frame whose payload is malformed makes the
handler panic instead of dropping the frame; the state it would have
mutated is returned unchanged only because the panic happens first. -/
theorem C1_malformed_delta_frame_panics :
    handle_uE pairOfBTC stBTC (.error .base64DecodeError) 0 = (.panicked, stBTC)
    ∧ handle_uE pairOfBTC stBTC (.error .invalidData) 0 = (.panicked, stBTC)
    ∧ handle_uE pairOfBTC stBTC (.error .parseError) 0 = (.panicked, stBTC) := by
  exact ⟨rfl, rfl, rfl⟩

/-- Claim C5: reset inserts an incoming level only if its price is absent
(entry().or_insert), so an existing level is never overwritten by a
snapshot; and a delta with a new price adds that level: reset with
[(100,1),(101,2)] followed by the delta (99,3) yields a book holding all
three levels. -/
theorem C5_reset_first_writer_wins
    (s : LiveAggregatedOrderBook) (levels : List Level)
    (hs : sortedByPrice s.asks_by_price)
    (p : Price) (hp : (lookupB p s.asks_by_price).isSome = true) :
    lookupB p (s.reset_asks levels).asks_by_price = lookupB p s.asks_by_price
    ∧ (((LiveAggregatedOrderBook.default ("BTC-USD")).reset_asks
          [(100, 1), (101, 2)]).update_ask (99, 3)).asks_by_price
        = [(99, 3), (100, 1), (101, 2)] := by
  constructor
  · exact lookupB_foldl_orInsert levels s.asks_by_price hs p hp
  · rfl

/-- Witness for C5: a second snapshot carrying (100, 9) does not overwrite
the level (100, 7) already stored at price 100. -/
theorem C5_reset_first_writer_wins_witness :
    lookupB 100 (((LiveAggregatedOrderBook.default ("p")).reset_asks
          [(100, 7)]).reset_asks [(100, 9)]).asks_by_price
      = lookupB 100 ((LiveAggregatedOrderBook.default ("p")).reset_asks
          [(100, 7)]).asks_by_price := by
  exact (C5_reset_first_writer_wins
    ((LiveAggregatedOrderBook.default ("p")).reset_asks [(100, 7)])
    [(100, 9)] (by decide) 100 (by decide)).1

theorem latest_order_book_of_cached (s : LiveAggregatedOrderBook) (t t₀ : Int)
    (ha : s.last_asks = (s.order_book t₀).asks)
    (hb : s.last_bids = (s.order_book t₀).bids) :
    s.latest_order_book t = (none, s) := by
  unfold LiveAggregatedOrderBook.latest_order_book
  have h : (s.order_book t).asks = s.last_asks ∧ (s.order_book t).bids = s.last_bids :=
    ⟨ha.symm, hb.symm⟩
  simp only [if_pos h]

theorem latest_order_book_cache (s : LiveAggregatedOrderBook) (t : Int) :
    (s.latest_order_book t).2.last_asks = (s.order_book t).asks
    ∧ (s.latest_order_book t).2.last_bids = (s.order_book t).bids := by
  unfold LiveAggregatedOrderBook.latest_order_book
  by_cases h : (s.order_book t).asks = s.last_asks ∧ (s.order_book t).bids = s.last_bids
  · simp only [if_pos h]
    exact ⟨h.1.symm, h.2.symm⟩
  · simp [if_neg h]

theorem latest_order_book_maps (s : LiveAggregatedOrderBook) (t : Int) :
    (s.latest_order_book t).2.asks_by_price = s.asks_by_price
    ∧ (s.latest_order_book t).2.bids_by_price = s.bids_by_price
    ∧ (s.latest_order_book t).2.depth = s.depth := by
  unfold LiveAggregatedOrderBook.latest_order_book
  by_cases h : (s.order_book t).asks = s.last_asks ∧ (s.order_book t).bids = s.last_bids
  · simp [if_pos h]
  · simp [if_neg h]

/-- Claim C6: after one call of latest_order_book the last-emitted cache
equals the current view, so a second call with no intervening mutation
returns none and leaves the state untouched. -/
theorem C6_view_if_changed_second_none (s : LiveAggregatedOrderBook) (t₁ t₂ : Int) :
    (s.latest_order_book t₁).2.last_asks = (s.order_book t₁).asks
    ∧ (s.latest_order_book t₁).2.last_bids = (s.order_book t₁).bids
    ∧ (s.latest_order_book t₁).2.latest_order_book t₂
        = (none, (s.latest_order_book t₁).2) := by
  obtain ⟨ha, hb⟩ := latest_order_book_cache s t₁
  obtain ⟨hA, hB, hd⟩ := latest_order_book_maps s t₁
  refine ⟨ha, hb, ?_⟩
  apply latest_order_book_of_cached _ t₂ t₂
  · rw [ha]
    show (s.asks_by_price.take s.depth).reverse
        = (((s.latest_order_book t₁).2.asks_by_price.take
            ((s.latest_order_book t₁).2.depth))).reverse
    rw [hA, hd]
  · rw [hb]
    show ((s.bids_by_price.reverse.take s.depth)).reverse
        = ((((s.latest_order_book t₁).2.bids_by_price.reverse.take
            ((s.latest_order_book t₁).2.depth)))).reverse
    rw [hB, hd]

/-- Claim C10: avg_price is none exactly when the asks list or the bids
list is empty, and on nonempty sides it is the exact decimal average of
the first ask price and the first bid price. -/
theorem C10_avg_price_spec (ob : Orderbook) :
    (ob.avg_price = none ↔ ob.asks = [] ∨ ob.bids = [])
    ∧ ∀ a as b bs, ob.asks = a :: as → ob.bids = b :: bs →
        ob.avg_price = some ((a.1 + b.1) / 2) := by
  constructor
  · unfold Orderbook.avg_price
    rcases hA : ob.asks with _ | ⟨a, as⟩ <;> rcases hB : ob.bids with _ | ⟨b, bs⟩ <;>
      simp [hA, hB]
  · intro a as b bs hA hB
    unfold Orderbook.avg_price
    simp [hA, hB]

/-- Witness for C10: on asks [(3, 1)] and bids [(1, 2)] the average price
is 2. -/
theorem C10_avg_price_witness :
    ({ timestamp := 0, pair := ("p"), asks := [(3, 1)], bids := [(1, 2)] } :
        Orderbook).avg_price = some 2 := by
  have h := (C10_avg_price_spec
    { timestamp := 0, pair := ("p"), asks := [(3, 1)], bids := [(1, 2)] }).2
    (3, 1) [] (1, 2) [] rfl rfl
  rw [h]
  norm_num

theorem noop_not_mem_book_events (st : BittrexState) (p : Pair) (delta : MarketDelta)
    (now : Int) : LiveEvent.Noop ∉ uE_book_events st p delta now := by
  unfold uE_book_events
  split
  · split <;> simp
  · simp

theorem noop_not_mem_trade_events (st : BittrexState) (p : Pair) (delta : MarketDelta) :
    LiveEvent.Noop ∉ uE_trade_events st p delta := by
  unfold uE_trade_events
  split
  · intro h
    rcases List.mem_map.mp h with ⟨f, hf, he⟩
    simp [mkTradeEvent] at he
  · simp

/-- Claim C7 (amended): the handler never emits a Noop event: whatever the
decode outcome, the frame and the state, the event list a handle outcome
carries to dispatch holds only LiveOrderbook and LiveTrade events, and a
frame that yields nothing actionable carries none at all. -/
theorem C7_handler_never_emits_noop (pairOf : String → Option Pair) (st : BittrexState)
    (decoded : Except DeflateError MarketDelta) (now : Int) :
    LiveEvent.Noop ∉ ((handle_uE pairOf st decoded now).1).eventsOf := by
  cases decoded with
  | error e => exact List.not_mem_nil _
  | ok delta =>
    show LiveEvent.Noop ∉ ((handle_uE_ok pairOf st delta now).1).eventsOf
    unfold handle_uE_ok
    cases hp : pairOf delta.MarketName with
    | none => exact List.not_mem_nil _
    | some current_pair =>
      dsimp only
      split
      · exact List.not_mem_nil _
      · intro h
        have h₂ : LiveEvent.Noop ∈
            uE_book_events st current_pair delta now ++
              uE_trade_events st current_pair delta := h
        rcases List.mem_append.mp h₂ with h₁ | h₁
        · exact noop_not_mem_book_events st current_pair delta now h₁
        · exact noop_not_mem_trade_events st current_pair delta h₁

/-- Counterexample for C7 as stated: a market-delta frame for a subscribed
pair that changes nothing makes handle yield the Err marker — no event is
dispatched at all — rather than an Ok list holding a Noop event. -/
theorem C7_nothing_actionable_yields_no_event :
    handle_uE pairOfBTC stBTC
        (.ok { MarketName := ("BTC-USD"), Nonce := 0, Buys := [], Sells := [], Fills := [] }) 0
      = (.noEvents, stBTC)
    ∧ HandleResult.noEvents ≠ HandleResult.events [LiveEvent.Noop] := by
  constructor
  · rfl
  · intro h
    cases h

theorem sendToAll_all_alive (ex : Exchange) (le : LiveEvent) (subs : List Subscriber)
    (h : ∀ r ∈ subs, r.alive = true) :
    sendToAll ex le subs
      = .ok (subs.map (fun r => { r with inbox := r.inbox ++ [⟨ex, le⟩] })) := by
  induction subs with
  | nil => rfl
  | cons r rs ih =>
    have hr : r.alive = true := h r (by simp)
    have ih₁ := ih (fun x hx => h x (List.mem_cons_of_mem r hx))
    simp [sendToAll, do_send, hr, ih₁]

theorem sendToAll_dead (ex : Exchange) (le : LiveEvent) (subs : List Subscriber)
    (h : ∃ r ∈ subs, r.alive = false) :
    sendToAll ex le subs = .error .panicked := by
  induction subs with
  | nil => simp at h
  | cons r rs ih =>
    rcases h with ⟨x, hx, hdead⟩
    rcases List.mem_cons.mp hx with rfl | hx₁
    · simp [sendToAll, do_send, hdead]
    · by_cases hr : r.alive = true
      · have h₁ := ih ⟨x, hx₁, hdead⟩
        simp [sendToAll, do_send, hr, h₁]
      · have hd : r.alive = false := Bool.eq_false_iff.mpr hr
        simp [sendToAll, do_send, hd]

theorem map_append_nil_id (subs : List Subscriber) :
    subs.map (fun r => { r with inbox := r.inbox ++ ([] : List LiveEventEnveloppe) }) = subs := by
  induction subs with
  | nil => rfl
  | cons a as iha =>
    rw [List.map_cons, iha]
    congr 1
    rw [List.append_nil]

theorem dispatch_all_alive (ex : Exchange) (les : List LiveEvent) :
    ∀ subs : List Subscriber, (∀ r ∈ subs, r.alive = true) →
      dispatch ex les subs
        = .ok (subs.map (fun r =>
            { r with inbox := r.inbox ++ les.map (fun le => ⟨ex, le⟩) })) := by
  induction les with
  | nil =>
    intro subs h
    rw [dispatch]
    congr 1
    exact (map_append_nil_id subs).symm
  | cons le rest ih =>
    intro subs h
    rw [dispatch, sendToAll_all_alive ex le subs h]
    have halive : ∀ x ∈ subs.map (fun r =>
        { r with inbox := r.inbox ++ [(⟨ex, le⟩ : LiveEventEnveloppe)] }), x.alive = true := by
      intro x hx
      rcases List.mem_map.mp hx with ⟨r, hr, rfl⟩
      exact h r hr
    show dispatch ex rest (subs.map (fun r =>
        { r with inbox := r.inbox ++ [(⟨ex, le⟩ : LiveEventEnveloppe)] })) = _
    rw [ih (subs.map (fun r => { r with inbox := r.inbox ++ [⟨ex, le⟩] })) halive]
    congr 1
    rw [List.map_map]
    congr 1
    funext r
    simp [Function.comp, List.append_assoc]

/-- Claim C8 (amended): when every registered subscriber is reachable, the
dispatch loop hands an owned, value-identical copy of every event to every
subscriber in registration order; but if any subscriber has gone away and
there is at least one event to deliver, the loop panics on the unwrapped
do_send instead of dropping that subscriber and continuing. -/
theorem C8_dispatch_fanout (ex : Exchange) (les : List LiveEvent) (subs : List Subscriber) :
    ((∀ r ∈ subs, r.alive = true) →
      dispatch ex les subs
        = .ok (subs.map (fun r =>
            { r with inbox := r.inbox ++ les.map (fun le => ⟨ex, le⟩) })))
    ∧ (∀ le rest, les = le :: rest → (∃ r ∈ subs, r.alive = false) →
      dispatch ex les subs = .error .panicked) := by
  constructor
  · exact dispatch_all_alive ex les subs
  · rintro le rest rfl ⟨x, hx, hdead⟩
    rw [dispatch, sendToAll_dead ex le subs ⟨x, hx, hdead⟩]

/-- Witness for C8: one event to one live subscriber is delivered; one
event to a list holding a gone subscriber panics. -/
theorem C8_dispatch_fanout_witness :
    dispatch Exchange.Bittrex [evSample] [{ alive := true, inbox := [] }]
      = .ok [{ alive := true, inbox := [{ exchange := Exchange.Bittrex, event := evSample }] }]
    ∧ dispatch Exchange.Bittrex [evSample]
        [{ alive := true, inbox := [] }, { alive := false, inbox := [] }]
      = .error .panicked := by
  constructor
  · exact ((C8_dispatch_fanout Exchange.Bittrex [evSample]
      [{ alive := true, inbox := [] }]).1 (by decide)).trans rfl
  · exact (C8_dispatch_fanout Exchange.Bittrex [evSample]
      [{ alive := true, inbox := [] }, { alive := false, inbox := [] }]).2
      evSample [] rfl ⟨{ alive := false, inbox := [] }, by simp, rfl⟩

/-- Counterexample for C8 as stated: with three registered subscribers of
which the middle one has gone away, publishing one event panics the
handler; it does not drop the dead subscriber and deliver to the rest. -/
theorem C8_dead_subscriber_panics :
    dispatch Exchange.Bittrex [evSample]
        [{ alive := true, inbox := [] }, { alive := false, inbox := [] },
          { alive := true, inbox := [] }]
      = .error .panicked := by
  rfl

theorem connectLoop_exhausts (nextBackoff : Nat → Option Nat) (k : Nat) :
    ∀ (connect : Nat → Bool) (i fuel : Nat),
      (∀ j, j ≤ k → connect (i + j) = false) →
      (∀ j, j < k → (nextBackoff (i + j)).isSome = true) →
      nextBackoff (i + k) = none → k < fuel →
      connectLoop connect nextBackoff fuel i = some (.error ()) := by
  induction k with
  | zero =>
    intro connect i fuel hc hb hk hf
    obtain ⟨f, rfl⟩ : ∃ f, fuel = f + 1 := ⟨fuel - 1, by omega⟩
    have h0 : connect i = false := by simpa using hc 0 (Nat.le_refl 0)
    have hk0 : nextBackoff i = none := by simpa using hk
    simp [connectLoop, h0, hk0]
  | succ k ih =>
    intro connect i fuel hc hb hk hf
    obtain ⟨f, rfl⟩ : ∃ f, fuel = f + 1 := ⟨fuel - 1, by omega⟩
    have h0 : connect i = false := by simpa using hc 0 (Nat.zero_le _)
    have hb0 : (nextBackoff i).isSome = true := by simpa using hb 0 (Nat.succ_pos k)
    obtain ⟨d, hd⟩ := Option.isSome_iff_exists.mp hb0
    have step : connectLoop connect nextBackoff (f + 1) i
        = connectLoop connect nextBackoff f (i + 1) := by
      simp [connectLoop, h0, hd]
    rw [step]
    apply ih connect (i + 1) f
    · intro j hj
      have e : i + 1 + j = i + (j + 1) := by omega
      rw [e]
      exact hc (j + 1) (by omega)
    · intro j hj
      have e : i + 1 + j = i + (j + 1) := by omega
      rw [e]
      exact hb (j + 1) (by omega)
    · have e : i + 1 + k = i + (k + 1) := by omega
      rw [e]
      exact hk
    · omega

theorem connectLoop_retries (connect : Nat → Bool) (nextBackoff : Nat → Option Nat)
    (hc : ∀ j, connect j = false) (hb : ∀ j, (nextBackoff j).isSome = true) :
    ∀ fuel i, connectLoop connect nextBackoff fuel i = none := by
  intro fuel
  induction fuel with
  | zero =>
    intro i
    rfl
  | succ f ih =>
    intro i
    obtain ⟨d, hd⟩ := Option.isSome_iff_exists.mp (hb i)
    simp [connectLoop, hc i, hd, ih]

/-- Claim C9: if the backoff policy has a configured maximum elapsed time
and declares it exceeded after a run of failing connect attempts (it
answers none after the k-th failure, having allowed the earlier retries),
the loop of DefaultWsActor::new returns the fatal backoff error — one
value surfaced once to the caller — and performs no connect attempt beyond
the k-th: the result is the same for every connect function agreeing on
attempts 0..k. If no maximum is configured (the policy always allows a
retry) and every attempt fails, the loop never returns: it is still
retrying after any amount of fuel. -/
theorem C9_backoff_exhaustion_and_retry
    (connect : Nat → Bool) (nextBackoff : Nat → Option Nat) (k : Nat) :
    ((∀ j, j ≤ k → connect j = false) →
      (∀ j, j < k → (nextBackoff j).isSome = true) →
      nextBackoff k = none →
      ∀ fuel, k < fuel → ∀ connectB : Nat → Bool,
        (∀ j, j ≤ k → connectB j = connect j) →
        connectLoop connectB nextBackoff fuel 0 = some (.error ()))
    ∧ ((∀ j, connect j = false) → (∀ j, (nextBackoff j).isSome = true) →
        ∀ fuel, connectLoop connect nextBackoff fuel 0 = none) := by
  constructor
  · intro hc hb hk fuel hf connectB hagree
    apply connectLoop_exhausts nextBackoff k connectB 0 fuel
    · intro j hj
      have e : 0 + j = j := Nat.zero_add j
      rw [e, hagree j hj]
      exact hc j hj
    · intro j hj
      have e : 0 + j = j := Nat.zero_add j
      rw [e]
      exact hb j hj
    · have e : 0 + k = k := Nat.zero_add k
      rw [e]
      exact hk
    · exact hf
  · intro hc hb fuel
    exact connectLoop_retries connect nextBackoff hc hb fuel 0

/-- Witness for C9: with attempts that always fail and a policy allowing
two retries before declaring the maximum exceeded, the loop returns the
fatal error within fuel 5; with the always-retry policy it is still
running after fuel 5. -/
theorem C9_backoff_witness :
    connectLoop (fun _ => false) (fun j => if j < 2 then some 1 else none) 5 0
      = some (.error ())
    ∧ connectLoop (fun _ => false) (fun _ => some 1) 5 0 = none := by
  constructor
  · exact (C9_backoff_exhaustion_and_retry (fun _ => false)
      (fun j => if j < 2 then some 1 else none) 2).1
      (fun j hj => rfl)
      (fun j hj => by rw [if_pos hj]; rfl)
      (by norm_num)
      5 (by norm_num)
      (fun _ => false) (fun j hj => rfl)
  · exact (C9_backoff_exhaustion_and_retry (fun _ => false) (fun _ => some 1) 0).2
      (fun j => rfl) (fun j => rfl) 5

end Coinnect
